import Mathlib

/-!
Verification of the Rubin interactive shell (src/src/main.rs).

The shell keeps a session state: current directory, a navigation history
with a cursor, a registry of custom commands and an environment-variable
overlay.  The dispatcher splits an input line on whitespace and routes the
first token to an operation.  Filesystem and process effects are modelled
by a `World` of fallible collaborator functions; each operation returns the
updated session and the list of lines it prints.
-/

namespace Rubin

/-- One custom command of the registry (struct `CustomCommand` in main.rs). -/
structure CustomCommand where
  name : String
  definition : String
  description : String
deriving DecidableEq, Inhabited

/-- The session state (struct `Shell` in main.rs).  Paths are modelled as
plain strings; `env_vars` models the `HashMap` as an association list whose
insert replaces the value of an existing key in place. -/
structure Shell where
  current_dir : String
  history : List String
  history_index : Nat
  custom_commands : List CustomCommand
  env_vars : List (String × String)
deriving DecidableEq

/-- The filesystem / process collaborators (std `fs`, `Command` in main.rs).
`read_dir` already yields the names of the entries that enumerate without a
per-entry error, matching the `filter_map(Result::ok)` in `list_dir`. -/
structure World where
  readToString : String → Except Unit String
  readDir : String → Except Unit (List String)
  createDirAll : String → Except Unit Unit
  removeDirFs : String → Except Unit Unit
  renameFs : String → String → Except Unit Unit
  copyFs : String → String → Except Unit Unit
  pathExists : String → Bool
  runSh : String → Except String Unit

/-- `PathBuf::join` of a directory and a relative component.  The joined
path is opaque to every property below, so the separator model is enough. -/
def pathJoin (dir component : String) : String :=
  dir ++ "/" ++ component

/-- Rust `char::is_whitespace` restricted to the ASCII whitespace the
claims exercise. -/
def wsChar (c : Char) : Bool :=
  c = ' ' || c = '\t' || c = '\n' || c = '\x0d'

/-- Rust `str::trim` on a character list: drop whitespace from both ends. -/
def trimChars (cs : List Char) : List Char :=
  ((cs.dropWhile wsChar).reverse.dropWhile wsChar).reverse

/-- Rust `str::trim` on a string. -/
def rustTrim (s : String) : String :=
  String.mk (trimChars s.toList)

/-- Helper of `split_whitespace`: `acc` holds the current token reversed. -/
def splitWsAux : List Char → List Char → List String
  | [], acc => if acc.isEmpty then [] else [String.mk acc.reverse]
  | c :: cs, acc =>
    if wsChar c then
      if acc.isEmpty then splitWsAux cs []
      else String.mk acc.reverse :: splitWsAux cs []
    else splitWsAux cs (c :: acc)

/-- Rust `str::split_whitespace`: tokens between runs of whitespace, no
empty tokens. -/
def split_whitespace (s : String) : List String :=
  splitWsAux s.toList []

/-- Rust `str::split_once('=')`: the parts before and after the first `=`,
or `none` when the character does not occur. -/
def splitOnceEq : List Char → Option (List Char × List Char)
  | [] => none
  | c :: cs =>
    if c = '=' then some ([], cs)
    else match splitOnceEq cs with
      | none => none
      | some (a, b) => some (c :: a, b)

/-- Split a character list at every newline, keeping empty segments. -/
def splitNl : List Char → List (List Char)
  | [] => [[]]
  | c :: cs =>
    if c = '\n' then [] :: splitNl cs
    else match splitNl cs with
      | [] => [[c]]
      | l :: ls => (c :: l) :: ls

/-- Strip one trailing carriage return, as Rust `str::lines` does. -/
def stripCr (l : List Char) : List Char :=
  if l.getLast? = some '\x0d' then l.dropLast else l

/-- Rust `str::lines`: split on newlines, drop the empty segment a trailing
newline (or the empty string) produces, strip a trailing carriage return. -/
def rustLines (s : String) : List (List Char) :=
  let parts := splitNl s.toList
  let parts := if parts.getLast? = some [] then parts.dropLast else parts
  parts.map stripCr

/-- `HashMap::insert` on the association-list model: replace the value of
an existing key, otherwise append the new binding. -/
def insertEnv (k v : String) : List (String × String) → List (String × String)
  | [] => [(k, v)]
  | (k', v') :: rest =>
    if k' = k then (k, v) :: rest else (k', v') :: insertEnv k v rest

/-- Lookup in the association-list model of the environment overlay. -/
def lookupEnv (k : String) : List (String × String) → Option String
  | [] => none
  | (k', v') :: rest => if k' = k then some v' else lookupEnv k rest

/-- `usize::MAX` on the 64-bit targets the shell builds for. -/
def usizeMax : Nat := 18446744073709551615

/-- Decimal digits to a number; `none` on an empty list or a non-digit. -/
def digitsToNat (cs : List Char) : Option Nat :=
  if cs.isEmpty then none
  else
    cs.foldl
      (fun acc c =>
        match acc with
        | none => none
        | some a => if c.isDigit then some (a * 10 + (c.toNat - 48)) else none)
      (some 0)

/-- Rust `str::parse::<usize>()`: an optional leading plus sign, then at
least one decimal digit, and the value must fit in `usize`. -/
def parseUsize (s : String) : Option Nat :=
  let cs := match s.toList with
    | '+' :: rest => rest
    | cs => cs
  match digitsToNat cs with
  | none => none
  | some v => if v ≤ usizeMax then some v else none

/-- `Shell::new` started in directory `start` (the reported initial working
directory): singleton history, cursor `0`, empty registry and overlay. -/
def Shell.new (start : String) : Shell :=
  { current_dir := start
    history := [start]
    history_index := 0
    custom_commands := []
    env_vars := [] }

/-- `run_script`: resolve relative to the current directory; report when the
path does not exist; otherwise spawn `sh` and report a spawn error. -/
def run_script (w : World) (s : Shell) (script_path : Option String) : List String :=
  match script_path with
  | some path =>
    let full := pathJoin s.current_dir path
    if w.pathExists full then
      match w.runSh full with
      | .ok _ => []
      | .error e => ["Failed to run script: " ++ e]
    else ["Script not found: " ++ path]
  | none => ["Usage: run <script_path>"]

/-- One line of a sourced environment file: split on the first `=`, trim
key and value, insert; a line without `=` leaves the overlay unchanged. -/
def applyEnvLine (env : List (String × String)) (line : List Char) :
    List (String × String) :=
  match splitOnceEq line with
  | some (k, v) =>
    insertEnv (String.mk (trimChars k)) (String.mk (trimChars v)) env
  | none => env

/-- Fold `applyEnvLine` over the lines of a file's contents. -/
def sourceContents (contents : String) (env : List (String × String)) :
    List (String × String) :=
  (rustLines contents).foldl applyEnvLine env

/-- `source_env_file`: read the file relative to the current directory and
apply every line; a read failure reports one generic message. -/
def source_env_file (w : World) (s : Shell) (file_path : Option String) :
    Shell × List String :=
  match file_path with
  | some path =>
    match w.readToString (pathJoin s.current_dir path) with
    | .ok contents =>
      ({ s with env_vars := sourceContents contents s.env_vars },
       ["Environment variables sourced."])
    | .error _ => (s, ["Failed to read env file."])
  | none => (s, ["Usage: source <env_file_path>"])

/-- `set_env_var`: both arguments required; insert/overwrite the binding. -/
def set_env_var (s : Shell) (key value : Option String) : Shell × List String :=
  match key, value with
  | some k, some v =>
    ({ s with env_vars := insertEnv k v s.env_vars },
     ["Environment variable set: " ++ k ++ "=" ++ v])
  | _, _ => (s, ["Usage: setenv <key> <value>"])

/-- `create_custom_command`: all three fields required; append to the
registry and report the created name. -/
def create_custom_command (s : Shell)
    (cmd_name cmd_definition cmd_description : Option String) :
    Shell × List String :=
  match cmd_name, cmd_definition, cmd_description with
  | some name, some definition, some description =>
    ({ s with custom_commands :=
        s.custom_commands ++ [⟨name, definition, description⟩] },
     ["Custom command '" ++ name ++ "' created."])
  | _, _, _ =>
    (s, ["Usage: cc create <command_name> <command_definition> <command_description>"])

/-- `list_custom_commands`: a distinct message when empty, else one line per
entry with its 1-based index, name, description and definition. -/
def list_custom_commands (s : Shell) : List String :=
  if s.custom_commands.isEmpty then ["No custom commands defined."]
  else
    s.custom_commands.enum.map fun p =>
      toString (p.1 + 1) ++ ": " ++ p.2.name ++ " - " ++ p.2.description
        ++ " (Definition: " ++ p.2.definition ++ ")"

/-- `delete_custom_command`: parse the 1-based position, validate the range,
remove the entry and report its name. -/
def delete_custom_command (s : Shell) (cmd_number : Option String) :
    Shell × List String :=
  match cmd_number with
  | some num_str =>
    match parseUsize num_str with
    | some index =>
      if 0 < index ∧ index ≤ s.custom_commands.length then
        ({ s with custom_commands := s.custom_commands.eraseIdx (index - 1) },
         ["Custom command '"
            ++ (s.custom_commands.getD (index - 1) default).name
            ++ "' deleted."])
      else (s, ["Command number out of range."])
    | none => (s, ["Invalid command number."])
  | none => (s, ["Usage: cc delete <command_number>"])

/-- The in-place update refactor performs on the addressed entry: each
optional field, if present, overwrites the stored one; the name is kept. -/
def updatedEntry (old : CustomCommand) (new_definition new_description : Option String) :
    CustomCommand :=
  { old with
    definition := match new_definition with
      | some d => d
      | none => old.definition
    description := match new_description with
      | some d => d
      | none => old.description }

/-- `refactor_custom_command`: same position validation as delete; each
optional field overwrites the stored one in place; the name never changes
and is reported on success. -/
def refactor_custom_command (s : Shell)
    (cmd_number new_definition new_description : Option String) :
    Shell × List String :=
  match cmd_number with
  | some num_str =>
    match parseUsize num_str with
    | some index =>
      if 0 < index ∧ index ≤ s.custom_commands.length then
        let old := s.custom_commands.getD (index - 1) default
        let upd := updatedEntry old new_definition new_description
        ({ s with custom_commands := s.custom_commands.set (index - 1) upd },
         ["Custom command '" ++ upd.name ++ "' updated."])
      else (s, ["Command number out of range."])
    | none => (s, ["Invalid command number."])
  | none =>
    (s, ["Usage: cc refactor <command_number> <new_definition> <new_description>"])

/-- `handle_custom_command`: sub-dispatch on the action token. -/
def handle_custom_command (s : Shell) (args : List String) : Shell × List String :=
  match args.head? with
  | some action =>
    match action with
    | "create" => create_custom_command s args[1]? args[2]? args[3]?
    | "list" => (s, list_custom_commands s)
    | "delete" => delete_custom_command s args[1]?
    | "refactor" => refactor_custom_command s args[1]? args[2]? args[3]?
    | _ => (s, ["Unknown custom command action: " ++ action])
  | none => (s, ["Usage: cc <create/list/delete/refactor>"])

/-- `list_dir`: print the entry names on success; a listing error prints
nothing at all (`if let Ok` with no else branch in main.rs). -/
def list_dir (w : World) (s : Shell) : List String :=
  match w.readDir s.current_dir with
  | .ok entries => entries
  | .error _ => []

/-- `make_dir`: join and create; one generic message on failure. -/
def make_dir (w : World) (s : Shell) (dir_name : Option String) : List String :=
  match dir_name with
  | some name =>
    match w.createDirAll (pathJoin s.current_dir name) with
    | .ok _ => []
    | .error _ => ["Failed to create directory: " ++ name]
  | none => ["Usage: mkdir <directory_name>"]

/-- `remove_dir`: join and remove; one generic message on failure. -/
def remove_dir (w : World) (s : Shell) (dir_name : Option String) : List String :=
  match dir_name with
  | some name =>
    match w.removeDirFs (pathJoin s.current_dir name) with
    | .ok _ => []
    | .error _ => ["Failed to remove directory: " ++ name]
  | none => ["Usage: rmdir <directory_name>"]

/-- `go_backward`: move the cursor one entry back when possible and load
that history entry; a no-op at the start.  The Rust index expression is in
bounds whenever the session invariant holds; `getD` keeps the model total. -/
def go_backward (s : Shell) : Shell :=
  if 0 < s.history_index then
    { s with
      history_index := s.history_index - 1
      current_dir := s.history.getD (s.history_index - 1) s.current_dir }
  else s

/-- `go_forward`: move the cursor one entry ahead when possible and load
that history entry; a no-op at the end (`history.len() - 1` is Rust `usize`
arithmetic on a history that is never empty in a reachable session). -/
def go_forward (s : Shell) : Shell :=
  if s.history_index < s.history.length - 1 then
    { s with
      history_index := s.history_index + 1
      current_dir := s.history.getD (s.history_index + 1) s.current_dir }
  else s

/-- `rename_dir`: both names required; one generic message on failure. -/
def rename_dir (w : World) (s : Shell) (old_name new_name : Option String) :
    List String :=
  match old_name, new_name with
  | some old, some new =>
    match w.renameFs (pathJoin s.current_dir old) (pathJoin s.current_dir new) with
    | .ok _ => []
    | .error _ => ["Failed to rename directory."]
  | _, _ => ["Usage: rename <old_name> <new_name>"]

/-- `move_file`: both paths required; one generic message on failure. -/
def move_file (w : World) (s : Shell) (source destination : Option String) :
    List String :=
  match source, destination with
  | some src, some dest =>
    match w.renameFs (pathJoin s.current_dir src) (pathJoin s.current_dir dest) with
    | .ok _ => []
    | .error _ => ["Failed to move file."]
  | _, _ => ["Usage: move <source> <destination>"]

/-- `copy_file`: both paths required; one generic message on failure. -/
def copy_file (w : World) (s : Shell) (source destination : Option String) :
    List String :=
  match source, destination with
  | some src, some dest =>
    match w.copyFs (pathJoin s.current_dir src) (pathJoin s.current_dir dest) with
    | .ok _ => []
    | .error _ => ["Failed to copy file."]
  | _, _ => ["Usage: copy <source> <destination>"]

/-- `type_file`: print the contents; one generic message on a read error. -/
def type_file (w : World) (s : Shell) (file_name : Option String) : List String :=
  match file_name with
  | some name =>
    match w.readToString (pathJoin s.current_dir name) with
    | .ok contents => [contents]
    | .error _ => ["Failed to read file."]
  | none => ["Usage: type <file_name>"]

/-- Modelled from the spec: `display_help` is called by the dispatcher but
its body is missing from the repository's files; the spec lists help as a
pure output operation of the fixed command set, with no state change. -/
def display_help (_s : Shell) : List String :=
  ["Commands: dir mkdir rmdir help <- -> clear rename move copy type exit cc run source setenv"]

/-- `execute_command`: split the line on whitespace; an empty line is a
no-op; the first token selects the operation; `clear` spawns a console
clear and `exit` terminates the process, neither changing the session nor
printing a line. -/
def execute_command (w : World) (s : Shell) (command : String) :
    Shell × List String :=
  match split_whitespace command with
  | [] => (s, [])
  | first :: rest =>
    match first with
    | "dir" => (s, list_dir w s)
    | "mkdir" => (s, make_dir w s rest[0]?)
    | "rmdir" => (s, remove_dir w s rest[0]?)
    | "help" => (s, display_help s)
    | "<-" => (go_backward s, [])
    | "->" => (go_forward s, [])
    | "clear" => (s, [])
    | "rename" => (s, rename_dir w s rest[0]? rest[1]?)
    | "move" => (s, move_file w s rest[0]? rest[1]?)
    | "copy" => (s, copy_file w s rest[0]? rest[1]?)
    | "type" => (s, type_file w s rest[0]?)
    | "exit" => (s, [])
    | "cc" => handle_custom_command s rest
    | "run" => (s, run_script w s rest[0]?)
    | "source" => source_env_file w s rest[0]?
    | "setenv" => set_env_var s rest[0]? rest[1]?
    | _ => (s, ["Unknown command: " ++ first])

/-- The state after processing a sequence of input lines (`Shell::run`
feeds each trimmed line to `execute_command`; processing stops at `exit`,
so a real session sees a prefix of the list, which every theorem below
covers since it holds for arbitrary line lists). -/
def run_shell (w : World) (s : Shell) : List String → Shell
  | [] => s
  | line :: rest => run_shell w (execute_command w s line).1 rest

/-- The session invariant of the spec: the cursor is in bounds and the
history entry at the cursor is the current location. -/
def NavInv (s : Shell) : Prop :=
  s.history_index < s.history.length ∧
    s.history[s.history_index]? = some s.current_dir

instance (s : Shell) : Decidable (NavInv s) := by
  unfold NavInv; infer_instance

/-- The navigation fields of a reachable session: the history is still the
singleton of the starting location, the cursor is `0`, and the location is
the starting location. -/
def NavFrozen (d : String) (s : Shell) : Prop :=
  s.history = [d] ∧ s.history_index = 0 ∧ s.current_dir = d

/-- A collaborator world where every filesystem call fails. -/
def errWorld : World :=
  { readToString := fun _ => .error ()
    readDir := fun _ => .error ()
    createDirAll := fun _ => .error ()
    removeDirFs := fun _ => .error ()
    renameFs := fun _ _ => .error ()
    copyFs := fun _ _ => .error ()
    pathExists := fun _ => false
    runSh := fun _ => .error "spawn failed" }


lemma source_fields (w : World) (s : Shell) (p : Option String) :
    ((source_env_file w s p).1).history = s.history ∧
      ((source_env_file w s p).1).history_index = s.history_index ∧
      ((source_env_file w s p).1).current_dir = s.current_dir := by
  unfold source_env_file
  refine ⟨?_, ?_, ?_⟩ <;> (repeat' split) <;> rfl

lemma setenv_fields (s : Shell) (k v : Option String) :
    ((set_env_var s k v).1).history = s.history ∧
      ((set_env_var s k v).1).history_index = s.history_index ∧
      ((set_env_var s k v).1).current_dir = s.current_dir := by
  unfold set_env_var
  refine ⟨?_, ?_, ?_⟩ <;> (repeat' split) <;> rfl

lemma hcc_fields (s : Shell) (args : List String) :
    ((handle_custom_command s args).1).history = s.history ∧
      ((handle_custom_command s args).1).history_index = s.history_index ∧
      ((handle_custom_command s args).1).current_dir = s.current_dir := by
  unfold handle_custom_command create_custom_command delete_custom_command
    refactor_custom_command
  refine ⟨?_, ?_, ?_⟩ <;> (repeat' split) <;> rfl

lemma go_backward_frozen {d : String} {s : Shell} (h : NavFrozen d s) :
    go_backward s = s := by
  unfold go_backward
  rw [h.2.1]
  rfl

lemma go_forward_frozen {d : String} {s : Shell} (h : NavFrozen d s) :
    go_forward s = s := by
  unfold go_forward
  rw [h.2.1, h.1]
  rfl

lemma nav_of_fields {d : String} {s s' : Shell} (h : NavFrozen d s)
    (e1 : s'.history = s.history) (e2 : s'.history_index = s.history_index)
    (e3 : s'.current_dir = s.current_dir) : NavFrozen d s' :=
  ⟨e1.trans h.1, e2.trans h.2.1, e3.trans h.2.2⟩

lemma exec_nav {d : String} (w : World) (s : Shell) (line : String)
    (h : NavFrozen d s) : NavFrozen d (execute_command w s line).1 := by
  unfold execute_command
  split
  · exact h
  · split <;>
      first
        | exact h
        | (rw [go_backward_frozen h]; exact h)
        | (rw [go_forward_frozen h]; exact h)
        | exact nav_of_fields h (hcc_fields _ _).1 (hcc_fields _ _).2.1
            (hcc_fields _ _).2.2
        | exact nav_of_fields h (source_fields _ _ _).1 (source_fields _ _ _).2.1
            (source_fields _ _ _).2.2
        | exact nav_of_fields h (setenv_fields _ _ _).1 (setenv_fields _ _ _).2.1
            (setenv_fields _ _ _).2.2

lemma run_shell_nav {d : String} (w : World) (lines : List String) (s : Shell)
    (h : NavFrozen d s) : NavFrozen d (run_shell w s lines) := by
  induction lines generalizing s with
  | nil => exact h
  | cons line rest ih => exact ih _ (exec_nav w s line h)

lemma new_nav (d : String) : NavFrozen d (Shell.new d) := ⟨rfl, rfl, rfl⟩



lemma goB_step (s : Shell) (h : NavInv s) :
    NavInv (go_backward s) ∧ (go_backward s).history = s.history ∧
      (go_backward s).history_index = s.history_index - 1 := by
  unfold go_backward NavInv at *
  split
  · next hpos =>
      have hlt : s.history_index - 1 < s.history.length := by omega
      refine ⟨⟨hlt, ?_⟩, rfl, rfl⟩
      simp only
      rw [List.getElem?_eq_getElem hlt, List.getD_eq_getElem _ _ hlt]
  · next hneg =>
      have h0 : s.history_index = 0 := by omega
      exact ⟨h, rfl, by omega⟩

lemma goB_iter (s : Shell) (h : NavInv s) (n : Nat) :
    NavInv (go_backward^[n] s) ∧ (go_backward^[n] s).history = s.history ∧
      (go_backward^[n] s).history_index = s.history_index - n := by
  induction n with
  | zero =>
    exact ⟨h, rfl, by show s.history_index = s.history_index - 0; omega⟩
  | succ n ih =>
    rw [Function.iterate_succ_apply']
    have step := goB_step _ ih.1
    exact ⟨step.1, step.2.1.trans ih.2.1, by rw [step.2.2, ih.2.2]; omega⟩

lemma goF_step (s : Shell) (h : NavInv s) :
    NavInv (go_forward s) ∧ (go_forward s).history = s.history ∧
      (go_forward s).history_index =
        min (s.history_index + 1) (s.history.length - 1) := by
  unfold go_forward NavInv at *
  split
  · next hpos =>
      have hlt : s.history_index + 1 < s.history.length := by omega
      refine ⟨⟨hlt, ?_⟩, rfl, ?_⟩
      · simp only
        rw [List.getElem?_eq_getElem hlt, List.getD_eq_getElem _ _ hlt]
      · simp only
        omega
  · next hneg =>
      exact ⟨h, rfl, by omega⟩

lemma goF_iter (s : Shell) (h : NavInv s) (n : Nat) :
    NavInv (go_forward^[n] s) ∧ (go_forward^[n] s).history = s.history ∧
      (go_forward^[n] s).history_index =
        min (s.history_index + n) (s.history.length - 1) := by
  induction n with
  | zero =>
    refine ⟨h, rfl, ?_⟩
    show s.history_index = min (s.history_index + 0) (s.history.length - 1)
    have := h.1
    omega
  | succ n ih =>
    rw [Function.iterate_succ_apply']
    have step := goF_step _ ih.1
    refine ⟨step.1, step.2.1.trans ih.2.1, ?_⟩
    rw [step.2.2, ih.2.2, ih.2.1]
    have := h.1
    omega



lemma set_getD_self {α : Type} (l : List α) (i : Nat) (d : α) :
    l.set i (l.getD i d) = l := by
  induction l generalizing i with
  | nil => rfl
  | cons a t ih =>
    cases i with
    | zero => rfl
    | succ i =>
      show a :: t.set i (t.getD i d) = a :: t
      rw [ih]

lemma lookup_insertEnv (k v : String) (env : List (String × String)) :
    lookupEnv k (insertEnv k v env) = some v := by
  induction env with
  | nil => simp [insertEnv, lookupEnv]
  | cons p rest ih =>
    unfold insertEnv
    split
    · simp [lookupEnv]
    · next hne =>
        unfold lookupEnv
        rw [if_neg hne]
        exact ih

lemma parseUsize_le (str : String) (k : Nat) (h : parseUsize str = some k) :
    k ≤ usizeMax := by
  unfold parseUsize at h
  simp only at h
  split at h
  · exact absurd h (by simp)
  · next v hv =>
      split at h
      · next hle => cases h; exact hle
      · cases h



/-- C1: after every dispatched operation from the initial state, the history
cursor stays in bounds and the history entry at the cursor is the current
location. -/
theorem history_cursor_invariant (d : String) (w : World) (lines : List String) :
    NavInv (run_shell w (Shell.new d) lines) := by
  obtain ⟨h1, h2, h3⟩ := run_shell_nav w lines (Shell.new d) (new_nav d)
  constructor
  · rw [h1, h2]
    simp
  · rw [h1, h2, h3]
    rfl

/-- C2: no dispatched operation ever appends to the history or moves to a
new directory: from the initial state the history stays the singleton of
the starting location, the cursor stays 0, the location stays the start,
and go-backward and go-forward are no-ops at every reachable state. -/
theorem dispatch_navigation_frozen (d : String) (w : World) (lines : List String) :
    (run_shell w (Shell.new d) lines).history = [d] ∧
      (run_shell w (Shell.new d) lines).history_index = 0 ∧
      (run_shell w (Shell.new d) lines).current_dir = d ∧
      go_backward (run_shell w (Shell.new d) lines) = run_shell w (Shell.new d) lines ∧
      go_forward (run_shell w (Shell.new d) lines) = run_shell w (Shell.new d) lines := by
  have h := run_shell_nav w lines (Shell.new d) (new_nav d)
  exact ⟨h.1, h.2.1, h.2.2, go_backward_frozen h, go_forward_frozen h⟩

/-- C3: from any session satisfying the invariant, enough repeated
go-backward calls leave the location at the first history entry and enough
repeated go-forward calls leave it at the last one; neither command prints
anything, and each call at its boundary is a no-op. -/
theorem navigation_saturates (w : World) (s : Shell) (h : NavInv s) (n m : Nat)
    (hn : s.history_index ≤ n)
    (hm : s.history.length - 1 - s.history_index ≤ m) :
    s.history[0]? = some ((go_backward^[n] s).current_dir) ∧
      s.history[s.history.length - 1]? = some ((go_forward^[m] s).current_dir) ∧
      (execute_command w s "<-").2 = [] ∧
      (execute_command w s "->").2 = [] ∧
      (s.history_index = 0 → go_backward s = s) ∧
      (s.history_index + 1 = s.history.length → go_forward s = s) := by
  refine ⟨?_, ?_, rfl, rfl, ?_, ?_⟩
  · obtain ⟨hInv, hHist, hIdx⟩ := goB_iter s h n
    have h0 : (go_backward^[n] s).history_index = 0 := by omega
    have := hInv.2
    rw [h0, hHist] at this
    exact this
  · obtain ⟨hInv, hHist, hIdx⟩ := goF_iter s h m
    have hLen := h.1
    have hEnd : (go_forward^[m] s).history_index = s.history.length - 1 := by omega
    have := hInv.2
    rw [hEnd, hHist] at this
    exact this
  · intro h0
    unfold go_backward
    rw [h0]
    rfl
  · intro hEnd
    unfold go_forward
    have : ¬ s.history_index < s.history.length - 1 := by omega
    rw [if_neg this]

/-- The main theorem applied at a one-entry session with two saturating
calls in each direction, every hypothesis discharged by evaluation. -/
theorem navigation_saturates_witness :
    (Shell.new "a").history[0]? = some ((go_backward^[2] (Shell.new "a")).current_dir) ∧
      (Shell.new "a").history[(Shell.new "a").history.length - 1]? =
        some ((go_forward^[2] (Shell.new "a")).current_dir) ∧
      (execute_command errWorld (Shell.new "a") "<-").2 = [] ∧
      (execute_command errWorld (Shell.new "a") "->").2 = [] ∧
      go_backward (Shell.new "a") = Shell.new "a" ∧
      go_forward (Shell.new "a") = Shell.new "a" := by
  have h := navigation_saturates errWorld (Shell.new "a") (by decide) 2 2
    (by decide) (by decide)
  exact ⟨h.1, h.2.1, h.2.2.1, h.2.2.2.1, h.2.2.2.2.1 rfl, h.2.2.2.2.2 rfl⟩



/-- C4 counterexample: a directory-listing error produces no output line at
all, so the listing operation does not report a user-visible failure
message and the collaborator error is silently swallowed. -/
theorem list_dir_error_silent : list_dir errWorld (Shell.new "/start") = [] := rfl

/-- C4 as amended: create/remove/rename/move/copy/read-file each report one
generic failure message when the filesystem call errors, but the
directory-listing operation prints nothing on a listing error. -/
theorem fs_ops_generic_failure (s : Shell) (name old new src dest file : String) :
    make_dir errWorld s (some name) = ["Failed to create directory: " ++ name] ∧
      remove_dir errWorld s (some name) = ["Failed to remove directory: " ++ name] ∧
      rename_dir errWorld s (some old) (some new) = ["Failed to rename directory."] ∧
      move_file errWorld s (some src) (some dest) = ["Failed to move file."] ∧
      copy_file errWorld s (some src) (some dest) = ["Failed to copy file."] ∧
      type_file errWorld s (some file) = ["Failed to read file."] ∧
      list_dir errWorld s = [] :=
  ⟨rfl, rfl, rfl, rfl, rfl, rfl, rfl⟩

/-- C5 counterexample: the dispatcher splits only on whitespace with no
quote handling, so the documented scenario does not list the claimed
entry. -/
theorem cc_create_quoted_scenario_fails :
    (execute_command errWorld
        (execute_command errWorld (Shell.new "/start")
            "cc create build \"echo hi\" \"builds the thing\"").1
        "cc list").2 ≠
      ["1: build - builds the thing (Definition: echo hi)"] := by decide

/-- C5 as amended: the quoted words become separate tokens, so the created
entry has definition `"echo` and description `hi"`, and `cc list` prints
exactly that entry. -/
theorem cc_create_quoted_scenario_actual :
    (execute_command errWorld (Shell.new "/start")
          "cc create build \"echo hi\" \"builds the thing\"").1.custom_commands =
        [⟨"build", "\"echo", "hi\""⟩] ∧
      (execute_command errWorld
          (execute_command errWorld (Shell.new "/start")
              "cc create build \"echo hi\" \"builds the thing\"").1
          "cc list").2 =
        ["1: build - hi\" (Definition: \"echo)"] := by
  exact ⟨by decide, by decide⟩



/-- A session with one registry entry, used to instantiate the registry
theorems. -/
def sampleShell : Shell :=
  { current_dir := "/s"
    history := ["/s"]
    history_index := 0
    custom_commands := [⟨"build", "echo", "demo"⟩]
    env_vars := [] }

/-- C6: delete with a non-parsing position reports the invalid-number
outcome, an integer position outside the registry range reports the
distinct out-of-range outcome, both leave the registry unmodified, and a
position in range removes exactly that entry and reports its name. -/
theorem delete_position_validation (s : Shell) (str : String) :
    (parseUsize str = none →
        delete_custom_command s (some str) = (s, ["Invalid command number."])) ∧
      (∀ k, parseUsize str = some k →
        ¬(0 < k ∧ k ≤ s.custom_commands.length) →
        delete_custom_command s (some str) = (s, ["Command number out of range."])) ∧
      (∀ k, parseUsize str = some k → 0 < k → k ≤ s.custom_commands.length →
        (delete_custom_command s (some str)).1 =
            { s with custom_commands := s.custom_commands.eraseIdx (k - 1) } ∧
          (delete_custom_command s (some str)).2 =
            ["Custom command '" ++ (s.custom_commands.getD (k - 1) default).name
                ++ "' deleted."]) := by
  refine ⟨?_, ?_, ?_⟩
  · intro h
    simp only [delete_custom_command, h]
  · intro k hk hrange
    simp only [delete_custom_command, hk]
    rw [if_neg hrange]
  · intro k hk h1 h2
    simp only [delete_custom_command, hk]
    rw [if_pos ⟨h1, h2⟩]
    exact ⟨rfl, rfl⟩

/-- The delete theorem applied at a one-entry registry: a non-numeric
position, the out-of-range positions 0 and 2, and the valid position 1. -/
theorem delete_position_validation_witness :
    delete_custom_command sampleShell (some "abc") =
        (sampleShell, ["Invalid command number."]) ∧
      delete_custom_command sampleShell (some "0") =
        (sampleShell, ["Command number out of range."]) ∧
      delete_custom_command sampleShell (some "2") =
        (sampleShell, ["Command number out of range."]) ∧
      (delete_custom_command sampleShell (some "1")).1 =
        { sampleShell with custom_commands := [] } ∧
      (delete_custom_command sampleShell (some "1")).2 =
        ["Custom command 'build' deleted."] := by
  have h1 := (delete_position_validation sampleShell "abc").1 (by decide)
  have h2 := (delete_position_validation sampleShell "0").2.1 0 (by decide) (by decide)
  have h3 := (delete_position_validation sampleShell "2").2.1 2 (by decide) (by decide)
  have h4 := (delete_position_validation sampleShell "1").2.2 1 (by decide) (by decide)
    (by decide)
  exact ⟨h1, h2, h3, h4.1.trans (by decide), h4.2.trans (by decide)⟩

/-- C7: refactor at a valid position only overwrites the fields that are
present, never the name, never another entry; with neither optional field
it is a no-op that still reports success. -/
theorem refactor_frame (s : Shell) (str : String) (k : Nat)
    (hp : parseUsize str = some k) (h1 : 0 < k)
    (h2 : k ≤ s.custom_commands.length) (nd ns : Option String) :
    ((refactor_custom_command s (some str) nd ns).1).custom_commands.length =
        s.custom_commands.length ∧
      (∀ j, j ≠ k - 1 →
        ((refactor_custom_command s (some str) nd ns).1).custom_commands[j]? =
          s.custom_commands[j]?) ∧
      (((refactor_custom_command s (some str) nd ns).1).custom_commands.getD
            (k - 1) default).name =
        (s.custom_commands.getD (k - 1) default).name ∧
      (nd = none →
        (((refactor_custom_command s (some str) nd ns).1).custom_commands.getD
              (k - 1) default).definition =
          (s.custom_commands.getD (k - 1) default).definition) ∧
      (ns = none →
        (((refactor_custom_command s (some str) nd ns).1).custom_commands.getD
              (k - 1) default).description =
          (s.custom_commands.getD (k - 1) default).description) ∧
      (nd = none → ns = none → (refactor_custom_command s (some str) nd ns).1 = s) ∧
      (refactor_custom_command s (some str) nd ns).2 =
        ["Custom command '" ++ (s.custom_commands.getD (k - 1) default).name
            ++ "' updated."] := by
  have hk1 : k - 1 < s.custom_commands.length := by omega
  have hred : refactor_custom_command s (some str) nd ns =
      ({ s with custom_commands := s.custom_commands.set (k - 1) (updatedEntry (s.custom_commands.getD (k - 1) default) nd ns) },
       ["Custom command '" ++ (updatedEntry (s.custom_commands.getD (k - 1) default) nd ns).name ++ "' updated."]) := by
    simp only [refactor_custom_command, hp]
    rw [if_pos ⟨h1, h2⟩]
  have hset : ((refactor_custom_command s (some str) nd ns).1).custom_commands.getD
      (k - 1) default =
      updatedEntry (s.custom_commands.getD (k - 1) default) nd ns := by
    rw [hred]
    simp only
    rw [List.getD_eq_getElem?_getD, List.getElem?_set_eq_of_lt _ (by simpa using hk1)]
    rfl
  refine ⟨?_, ?_, ?_, ?_, ?_, ?_, ?_⟩
  · rw [hred]
    simp [List.length_set]
  · intro j hj
    rw [hred]
    simp only
    exact List.getElem?_set_ne (fun he => hj he.symm)
  · rw [hset]
    rfl
  · intro hnd
    rw [hset, hnd]
    rfl
  · intro hns
    rw [hset, hns]
    rfl
  · intro hnd hns
    rw [hred, hnd, hns]
    simp only
    have he : updatedEntry (s.custom_commands.getD (k - 1) default) none none =
        s.custom_commands.getD (k - 1) default := rfl
    rw [he, set_getD_self]
  · rw [hred]
    rfl



/-- The refactor theorem applied at the one-entry registry: position 1 with
only a description, only a definition, and neither. -/
theorem refactor_frame_witness :
    (((refactor_custom_command sampleShell (some "1") none (some "newdesc")).1).custom_commands.getD
          0 default).definition =
        (sampleShell.custom_commands.getD 0 default).definition ∧
      (((refactor_custom_command sampleShell (some "1") (some "newdef") none).1).custom_commands.getD
            0 default).description =
        (sampleShell.custom_commands.getD 0 default).description ∧
      (((refactor_custom_command sampleShell (some "1") none (some "newdesc")).1).custom_commands.getD
            0 default).name =
        (sampleShell.custom_commands.getD 0 default).name ∧
      ((refactor_custom_command sampleShell (some "1") none (some "newdesc")).1).custom_commands[1]? =
        sampleShell.custom_commands[1]? ∧
      (refactor_custom_command sampleShell (some "1") none none).1 = sampleShell ∧
      (refactor_custom_command sampleShell (some "1") none none).2 =
        ["Custom command 'build' updated."] := by
  have hA := refactor_frame sampleShell "1" 1 (by decide) (by decide) (by decide)
    none (some "newdesc")
  have hB := refactor_frame sampleShell "1" 1 (by decide) (by decide) (by decide)
    (some "newdef") none
  have hC := refactor_frame sampleShell "1" 1 (by decide) (by decide) (by decide)
    none none
  exact ⟨hA.2.2.2.1 rfl, hB.2.2.2.2.1 rfl, hA.2.2.1, hA.2.1 1 (by decide),
    hC.2.2.2.2.2.1 rfl rfl, hC.2.2.2.2.2.2.trans (by decide)⟩

/-- A collaborator world whose file read yields the three-line environment
file of the sourcing scenario. -/
def envWorld : World :=
  { errWorld with readToString := fun _ => .ok "A=1\nBADLINE\nB = 2" }

/-- C8: sourcing a file with contents `A=1`, `BADLINE`, `B = 2` yields
exactly the bindings A ↦ 1 and B ↦ 2, the malformed line inert, key and
value trimmed, and the success message printed. -/
theorem source_scenario :
    (source_env_file envWorld (Shell.new "/start") (some "vars.env")).1.env_vars =
        [("A", "1"), ("B", "2")] ∧
      (source_env_file envWorld (Shell.new "/start") (some "vars.env")).2 =
        ["Environment variables sourced."] :=
  ⟨by decide, by decide⟩

/-- C9: a sourced line that begins with `=` (with or without surrounding
whitespace) is not skipped: it inserts the empty-string key with the
trimmed remainder as value, overwriting any prior empty-string binding. -/
theorem source_empty_key_line (env : List (String × String)) :
    applyEnvLine env "=value".toList = insertEnv "" "value" env ∧
      applyEnvLine env " = value".toList = insertEnv "" "value" env ∧
      lookupEnv "" (applyEnvLine env "=value".toList) = some "value" ∧
      lookupEnv "" (applyEnvLine env " = value".toList) = some "value" := by
  have h1 : applyEnvLine env "=value".toList = insertEnv "" "value" env := rfl
  have h2 : applyEnvLine env " = value".toList = insertEnv "" "value" env := rfl
  refine ⟨h1, h2, ?_, ?_⟩
  · rw [h1]
    exact lookup_insertEnv "" "value" env
  · rw [h2]
    exact lookup_insertEnv "" "value" env

/-- C10: positions that are negative or exceed the unsigned machine-word
range fail the parse and therefore report the invalid-number outcome in
both delete and refactor; every parsed position is representable. -/
theorem position_parse_rejects (s : Shell) :
    parseUsize "-1" = none ∧
      parseUsize "18446744073709551616" = none ∧
      (∀ str k, parseUsize str = some k → k ≤ usizeMax) ∧
      delete_custom_command s (some "-1") = (s, ["Invalid command number."]) ∧
      delete_custom_command s (some "18446744073709551616") =
        (s, ["Invalid command number."]) ∧
      refactor_custom_command s (some "-1") none none =
        (s, ["Invalid command number."]) ∧
      refactor_custom_command s (some "18446744073709551616") none none =
        (s, ["Invalid command number."]) := by
  have hm : parseUsize "-1" = none := by decide
  have hb : parseUsize "18446744073709551616" = none := by decide
  refine ⟨hm, hb, parseUsize_le, ?_, ?_, ?_, ?_⟩
  · simp only [delete_custom_command, hm]
  · simp only [delete_custom_command, hb]
  · simp only [refactor_custom_command, hm]
  · simp only [refactor_custom_command, hb]

/-- The parse theorem applied at the one-entry registry, its inner
hypothesis discharged at the parse of "7". -/
theorem position_parse_rejects_witness :
    parseUsize "-1" = none ∧
      delete_custom_command sampleShell (some "-1") =
        (sampleShell, ["Invalid command number."]) ∧
      7 ≤ usizeMax := by
  have h := position_parse_rejects sampleShell
  exact ⟨h.1, h.2.2.2.1, h.2.2.1 "7" 7 (by decide)⟩


end Rubin
